import Mathlib

/-!
Shallow embedding of `src/view_audit_logs.py`, a viewer for Amazon Q CLI
audit-log session files, together with proofs about its behaviour.

Modelling conventions:
* Python strings are modelled as `List Char` (`PyStr`); every Python
  string operation the script uses (`replace` with a one-character
  pattern, `len`, slicing, concatenation) is translated directly.
* JSON values produced by `json.loads` are modelled by `JVal`.
* Console output is modelled symbolically: each `print(...)` call site in
  the script is represented by one `OutLine` constructor carrying the
  interpolated payloads.  Every `print` in the script uses the default
  file argument, i.e. writes to standard output; the script never writes
  to `sys.stderr`.
* Python exceptions that the script can raise and does not catch are
  modelled by `Err`; a function that may raise returns the output
  produced before the exception together with an `Option Err`.
* Session-file paths are modelled by their file names, so the `{path}` of
  the loader's error print and the `.name` of the per-session file header
  coincide.
-/

/-- A Python string, modelled as its list of characters. -/
abbrev PyStr := List Char

/-- A JSON value as produced by `json.loads`. -/
inductive JVal where
  | null
  | bool (b : Bool)
  | num (n : Int)
  | str (s : PyStr)
  | arr (xs : List JVal)
  | obj (fields : List (PyStr × JVal))

/-- Python exceptions that the script can raise past a given point. -/
inductive Err where
  | keyError (key : PyStr)
  | typeError
  | attributeError
deriving DecidableEq, Repr

/-- Dictionary lookup as in CPython: for duplicate keys in the JSON text,
`json.loads` keeps the last binding, so lookup prefers the rightmost pair. -/
def lookupField : List (PyStr × JVal) → PyStr → Option JVal
  | [], _ => none
  | (k, v) :: rest, key =>
    match lookupField rest key with
    | some r => some r
    | none => if k = key then some v else none

/-- `d.get(key, default)` on a Python dict. -/
def objGetD (fields : List (PyStr × JVal)) (key : PyStr) (dflt : JVal) : JVal :=
  (lookupField fields key).getD dflt

/-- Python subscripting `v[key]` with a string key: a dict yields the value
or raises `KeyError`; every other JSON value raises `TypeError`. -/
def getItem (v : JVal) (key : PyStr) : Except Err JVal :=
  match v with
  | .obj fields =>
    match lookupField fields key with
    | some x => .ok x
    | none => .error (.keyError key)
  | _ => .error .typeError

/-- Python truthiness of a JSON value (`bool(v)`). -/
def truthy : JVal → Bool
  | .null => false
  | .bool b => b
  | .num n => n ≠ 0
  | .str s => s ≠ []
  | .arr xs => !xs.isEmpty
  | .obj fields => !fields.isEmpty

/-- `v == "lit"` in Python for a JSON value: only equal when `v` is the
string; comparisons across types are `False`, never an error. -/
def isStr (v : JVal) (lit : String) : Bool :=
  match v with
  | .str s => s = lit.data
  | _ => false

/-! ### Session loader (`load_session_events`) -/

/-- One physical line of a session file, as seen by the loader's loop.
`json.loads` is external library code, so a line is abstracted to its
parse outcome: `blank` for a line whose `strip()` is falsy, `good e` for
a line parsing to the JSON value `e`, and `bad msg` for a line on which
`json.loads` raises an exception whose message is `msg`. -/
inductive Line where
  | blank
  | good (e : JVal)
  | bad (msg : PyStr)

/-- Whether a `Line` makes `json.loads` raise. -/
def Line.isBad : Line → Bool
  | .bad _ => true
  | _ => false

/-- Whether a `Line` strips to the empty string (and is skipped). -/
def Line.isBlank : Line → Bool
  | .blank => true
  | _ => false

/-- A session file as the loader sees it: either `open` itself raises
(message `msg`), or the file's lines. -/
inductive SessionFile where
  | openError (msg : PyStr)
  | content (lines : List Line)

/-- The loop body of `load_session_events` on the file's lines: skip blank
lines, append each parsed event, and stop at the first line on which
`json.loads` raises, returning the exception message alongside the events
collected so far. -/
def loadLines : List Line → List JVal × Option PyStr
  | [] => ([], none)
  | .blank :: rest => loadLines rest
  | .good e :: rest =>
    match loadLines rest with
    | (evts, err) => (e :: evts, err)
  | .bad msg :: _ => ([], some msg)

/-- `load_session_events`: all events of a session file, together with the
message of the caught exception when reading or parsing failed.  The
`try`/`except` in the source catches every exception, so this function is
total: it never raises past this boundary. -/
def load_session_events : SessionFile → List JVal × Option PyStr
  | .openError msg => ([], some msg)
  | .content lines => loadLines lines

/-- The events extracted from the lines preceding a failure: every `good`
line's value, in file order. -/
def goodsOf : List Line → List JVal
  | [] => []
  | .good e :: rest => e :: goodsOf rest
  | _ :: rest => goodsOf rest

/-! ### Timestamp formatter (`format_timestamp`) -/

/-- `ts_str.replace('Z', '+00:00')`: the pattern is a single character, so
every occurrence of `Z` is replaced by `+00:00`. -/
def replaceZwithOffset : PyStr → PyStr
  | [] => []
  | c :: rest =>
    if c = 'Z' then '+' :: '0' :: '0' :: ':' :: '0' :: '0' :: replaceZwithOffset rest
    else c :: replaceZwithOffset rest

/-- A parsed `datetime.datetime` value. -/
structure DateTime where
  year : Nat
  month : Nat
  day : Nat
  hour : Nat
  minute : Nat
  second : Nat
  microsecond : Nat
  tzOffsetMinutes : Option Int
deriving DecidableEq, Repr

/-- Numeric value of a decimal digit character. -/
def digitVal (c : Char) : Nat := c.toNat - '0'.toNat

/-- Gregorian leap-year rule, as validated by `datetime`. -/
def isLeapYear (y : Nat) : Bool := y % 4 = 0 && (y % 100 ≠ 0 || y % 400 = 0)

/-- Days in a month, as validated by `datetime`. -/
def daysInMonth (y m : Nat) : Nat :=
  if m = 2 then (if isLeapYear y then 29 else 28)
  else if m = 4 || m = 6 || m = 9 || m = 11 then 30
  else 31

/-- Parse and range-check the optional `±HH:MM` offset suffix. -/
def parseOffset : PyStr → Option (Option Int)
  | [] => some none
  | sign :: h1 :: h2 :: ':' :: m1 :: m2 :: [] =>
    if (sign = '+' || sign = '-') && h1.isDigit && h2.isDigit && m1.isDigit && m2.isDigit then
      let oh := digitVal h1 * 10 + digitVal h2
      let om := digitVal m1 * 10 + digitVal m2
      if oh ≤ 23 && om ≤ 59 then
        let total : Int := oh * 60 + om
        some (some (if sign = '-' then -total else total))
      else none
    else none
  | _ => none

/-- Parse the optional fractional-seconds part (`.fff` or `.ffffff`) and
the offset that may follow it. -/
def parseFracAndOffset : PyStr → Option (Nat × Option Int)
  | '.' :: d1 :: d2 :: d3 :: d4 :: d5 :: d6 :: rest =>
    if d1.isDigit && d2.isDigit && d3.isDigit && d4.isDigit && d5.isDigit && d6.isDigit then
      match parseOffset rest with
      | some off =>
        some (digitVal d1 * 100000 + digitVal d2 * 10000 + digitVal d3 * 1000 +
              digitVal d4 * 100 + digitVal d5 * 10 + digitVal d6, off)
      | none =>
        match rest with
        | [] => none
        | _ => none
    else none
  | '.' :: d1 :: d2 :: d3 :: rest =>
    if d1.isDigit && d2.isDigit && d3.isDigit then
      match parseOffset rest with
      | some off => some (digitVal d1 * 100000 + digitVal d2 * 10000 + digitVal d3 * 1000, off)
      | none => none
    else none
  | rest =>
    match parseOffset rest with
    | some off => some (0, off)
    | none => none

/-- Parse the `HH:MM:SS` time part followed by optional fraction and offset. -/
def parseTimePart (s : PyStr) : Option (Nat × Nat × Nat × Nat × Option Int) :=
  match s with
  | h1 :: h2 :: ':' :: m1 :: m2 :: ':' :: s1 :: s2 :: rest =>
    if h1.isDigit && h2.isDigit && m1.isDigit && m2.isDigit && s1.isDigit && s2.isDigit then
      let hh := digitVal h1 * 10 + digitVal h2
      let mi := digitVal m1 * 10 + digitVal m2
      let ss := digitVal s1 * 10 + digitVal s2
      if hh ≤ 23 && mi ≤ 59 && ss ≤ 59 then
        match parseFracAndOffset rest with
        | some (us, off) => some (hh, mi, ss, us, off)
        | none => none
      else none
    else none
  | _ => none

/-- Model of CPython's `datetime.fromisoformat`, restricted to the
`YYYY-MM-DD[THH:MM:SS[.fff|.ffffff]][±HH:MM]` forms that `isoformat()`
emits (every CPython version since 3.7 accepts exactly these, so the
model is version-independent on this subset); `none` models a raised
`ValueError`. -/
def fromisoformat (s : PyStr) : Option DateTime :=
  match s with
  | y1 :: y2 :: y3 :: y4 :: '-' :: m1 :: m2 :: '-' :: d1 :: d2 :: rest =>
    if y1.isDigit && y2.isDigit && y3.isDigit && y4.isDigit &&
       m1.isDigit && m2.isDigit && d1.isDigit && d2.isDigit then
      let y := digitVal y1 * 1000 + digitVal y2 * 100 + digitVal y3 * 10 + digitVal y4
      let mo := digitVal m1 * 10 + digitVal m2
      let d := digitVal d1 * 10 + digitVal d2
      if 1 ≤ mo && mo ≤ 12 && 1 ≤ d && d ≤ daysInMonth y mo && 1 ≤ y then
        match rest with
        | [] => some ⟨y, mo, d, 0, 0, 0, 0, none⟩
        | 'T' :: timePart =>
          match parseTimePart timePart with
          | some (hh, mi, ss, us, off) => some ⟨y, mo, d, hh, mi, ss, us, off⟩
          | none => none
        | _ => none
      else none
    else none
  | _ => none

/-- Decimal digits of `n`, zero-padded on the left to width `w`. -/
def padNum (w n : Nat) : PyStr :=
  let ds := (toString n).data
  List.replicate (w - ds.length) '0' ++ ds

/-- `dt.strftime('%Y-%m-%d %H:%M:%S')`: render the wall-clock fields; the
offset and microseconds do not appear in the output. -/
def strftimeYmdHMS (dt : DateTime) : PyStr :=
  padNum 4 dt.year ++ '-' :: padNum 2 dt.month ++ '-' :: padNum 2 dt.day ++
  ' ' :: padNum 2 dt.hour ++ ':' :: padNum 2 dt.minute ++ ':' :: padNum 2 dt.second

/-- `format_timestamp`: normalise `Z` to `+00:00`, parse, and render; on
any parse failure the bare `except:` returns the original string, so the
function is total and never raises to its caller. -/
def format_timestamp (ts_str : PyStr) : PyStr :=
  match fromisoformat (replaceZwithOffset ts_str) with
  | some dt => strftimeYmdHMS dt
  | none => ts_str

/-- `format_timestamp` as applied to an arbitrary JSON value: on a
non-string, `.replace` raises `AttributeError` inside the `try`, the bare
`except:` catches it, and the value is returned unchanged. -/
def formatTimestampJ : JVal → JVal
  | .str s => .str (format_timestamp s)
  | v => v

/-! ### Session renderer (`print_tool_execution`, `analyze_session`) -/

/-- One printed line of the transcript.  Each constructor corresponds to
one `print(...)` call site in the script and carries the payloads
interpolated there; all of these calls write to standard output. -/
inductive OutLine where
  | errorReading (line : PyStr)
  | sessionHeader (sid : JVal)
  | fileHeader (name : PyStr)
  | started (ts : JVal)
  | model (v : JVal)
  | interactive (v : JVal)
  | userInput (v : JVal)
  | toolStarted (name : JVal)
  | server (v : JVal)
  | finished (ok : Bool) (status : JVal)
  | toolOutput (v : JVal)
  | duration (v : JVal)
  | ended (ts : JVal)
  | footer (tools mcp : Nat)
  | noSessionFiles
  | foundCount (n : Nat)

/-- The loop state of `analyze_session`: lines printed so far and the two
counters. -/
structure SessState where
  out : List OutLine
  toolCount : Nat
  mcpCount : Nat

/-- Print one line. -/
def emit (st : SessState) (l : OutLine) : SessState :=
  { st with out := st.out ++ [l] }

/-- Print several lines. -/
def emits (st : SessState) (ls : List OutLine) : SessState :=
  { st with out := st.out ++ ls }

/-- The display value of `x` after `if len(x) > limit: x = x[:limit] + "..."`:
for a string, truncate and append the ellipsis when longer than `limit`;
`len` of a list or dict succeeds, but slicing a dict or concatenating a
list slice with the ellipsis string raises `TypeError`, and `len` of any
other value raises `TypeError` immediately. -/
def pyTruncate (v : JVal) (limit : Nat) : Except Err JVal :=
  match v with
  | .str s => .ok (.str (if s.length > limit then s.take limit ++ "...".data else s))
  | .arr xs => if xs.length > limit then .error .typeError else .ok (.arr xs)
  | .obj fields => if fields.length > limit then .error .typeError else .ok (.obj fields)
  | _ => .error .typeError

/-- `print_tool_execution`: the lines it prints, and the exception it
raises when the event lacks the fields it subscripts.  `data['tool_name']`
and `data['status']` raise `TypeError` on a non-dict `data` before the
membership tests, so `data` is a dict wherever `'mcp_server' in data`,
`'output' in data` or `'duration_ms' in data` is evaluated. -/
def print_tool_execution (event : JVal) : List OutLine × Option Err :=
  match getItem event "data".data with
  | .error e => ([], some e)
  | .ok data =>
    match getItem event "type".data with
    | .error e => ([], some e)
    | .ok t =>
      if isStr t "tool_execute_start" then
        match data with
        | .obj ds =>
          match lookupField ds "tool_name".data with
          | none => ([], some (.keyError "tool_name".data))
          | some tn =>
            match lookupField ds "mcp_server".data with
            | some v =>
              if truthy v then ([.toolStarted tn, .server v], none)
              else ([.toolStarted tn], none)
            | none => ([.toolStarted tn], none)
        | _ => ([], some .typeError)
      else if isStr t "tool_execute_end" then
        match data with
        | .obj ds =>
          match lookupField ds "status".data with
          | none => ([], some (.keyError "status".data))
          | some status =>
            let l1 : List OutLine := [.finished (isStr status "success") status]
            match lookupField ds "output".data with
            | some output =>
              match pyTruncate output 200 with
              | .error e => (l1, some e)
              | .ok shown =>
                match lookupField ds "duration_ms".data with
                | some d => (l1 ++ [.toolOutput shown, .duration d], none)
                | none => (l1 ++ [.toolOutput shown], none)
            | none =>
              match lookupField ds "duration_ms".data with
              | some d => (l1 ++ [.duration d], none)
              | none => (l1, none)
        | _ => ([], some .typeError)
      else ([], none)

/-- One iteration of the event loop of `analyze_session`: fetch and format
`event['ts']`, fetch `event['type']`, and dispatch on the five known type
tags; an event of any other type prints nothing and changes no counter. -/
def procEvent (st : SessState) (event : JVal) : SessState × Option Err :=
  match getItem event "ts".data with
  | .error e => (st, some e)
  | .ok tsv =>
    let ts := formatTimestampJ tsv
    match getItem event "type".data with
    | .error e => (st, some e)
    | .ok etype =>
      if isStr etype "session_start" then
        match getItem event "data".data with
        | .error e => (st, some e)
        | .ok data =>
          let st1 := emit st (.started ts)
          match data with
          | .obj ds =>
            let st2 := emit st1 (.model (objGetD ds "model_id".data (.str "Unknown".data)))
            let st3 := emit st2 (.interactive (objGetD ds "interactive".data (.bool false)))
            (st3, none)
          | _ => (st1, some .attributeError)
      else if isStr etype "user_input" then
        match getItem event "data".data with
        | .error e => (st, some e)
        | .ok data =>
          match getItem data "input".data with
          | .error e => (st, some e)
          | .ok inp =>
            match pyTruncate inp 100 with
            | .error e => (st, some e)
            | .ok shown => (emit st (.userInput shown), none)
      else if isStr etype "tool_execute_start" then
        let st1 := { st with toolCount := st.toolCount + 1 }
        match getItem event "data".data with
        | .error e => (st1, some e)
        | .ok (.obj ds) =>
          let st2 :=
            if truthy (objGetD ds "mcp_server".data .null) then
              { st1 with mcpCount := st1.mcpCount + 1 }
            else st1
          match print_tool_execution event with
          | (ls, e) => (emits st2 ls, e)
        | .ok _ => (st1, some .attributeError)
      else if isStr etype "tool_execute_end" then
        match print_tool_execution event with
        | (ls, e) => (emits st ls, e)
      else if isStr etype "session_end" then
        (emit st (.ended ts), none)
      else
        (st, none)

/-- The event loop of `analyze_session`: stop at the first uncaught
exception. -/
def procEvents (st : SessState) : List JVal → SessState × Option Err
  | [] => (st, none)
  | e :: rest =>
    match procEvent st e with
    | (st2, some err) => (st2, some err)
    | (st2, none) => procEvents st2 rest

/-- The `Error reading <path>: <message>` line printed by the loader's
`except` branch. -/
def errorLine (path msg : PyStr) : PyStr :=
  "Error reading ".data ++ path ++ ": ".data ++ msg

/-- The loader's error print, when reading failed: it precedes every other
line of `analyze_session`. -/
def preOut (path : PyStr) (loadErr : Option PyStr) : List OutLine :=
  match loadErr with
  | some msg => [.errorReading (errorLine path msg)]
  | none => []

/-- `analyze_session`: the lines printed for one session file (including
the loader's error line, which precedes everything else), and the
exception raised when rendering fails.  An empty event list returns after
the loader's output; otherwise `events[0]['session_id']` is fetched, the
headers and each event's lines are printed, and the footer reports the
two counters. -/
def analyze_session (path : PyStr) (file : SessionFile) : List OutLine × Option Err :=
  match load_session_events file with
  | (events, loadErr) =>
    let pre : List OutLine := preOut path loadErr
    match events with
    | [] => (pre, none)
    | e0 :: _ =>
      match getItem e0 "session_id".data with
      | .error err => (pre, some err)
      | .ok sid =>
        let st0 : SessState :=
          { out := pre ++ [.sessionHeader sid, .fileHeader path], toolCount := 0, mcpCount := 0 }
        match procEvents st0 events with
        | (st, some err) => (st.out, some err)
        | (st, none) => (st.out ++ [.footer st.toolCount st.mcpCount], none)

/-! ### Main loop (`main`) -/

/-- Output of a run: the standard-output lines, the standard-error lines,
and the uncaught exception if the run crashed.  The script writes every
line via `print(...)` with the default file, so nothing ever reaches
standard error. -/
structure RunOutput where
  stdout : List OutLine
  stderr : List OutLine
  uncaught : Option Err

/-- The per-file loop of `main` over already-selected session files: run
`analyze_session` on each; an exception from one rendering propagates out
of `main` and aborts the remaining files. -/
def runSessions : List (PyStr × SessionFile) → RunOutput
  | [] => ⟨[], [], none⟩
  | (p, f) :: rest =>
    match analyze_session p f with
    | (out, some err) => ⟨out, [], some err⟩
    | (out, none) =>
      match runSessions rest with
      | r => ⟨out ++ r.stdout, r.stderr, r.uncaught⟩

/-- A discovered session file: its path, its `st_mtime`, and its content.
Modification times are modelled as natural numbers. -/
structure FileEntry where
  path : PyStr
  mtime : Nat
  file : SessionFile

/-- `session_files.sort(key=lambda x: x.stat().st_mtime, reverse=True)`:
a stable sort, descending by modification time.  Python's sort is stable,
and a stable descending sort is extensionally unique, so insertion sort
with the reflexive descending comparison models it exactly. -/
def sortByMtimeDesc (files : List FileEntry) : List FileEntry :=
  List.insertionSort (fun x y => y.mtime ≤ x.mtime) files

/-- `session_files[:5]` after the sort: the files that get rendered. -/
def selectedFiles (files : List FileEntry) : List FileEntry :=
  (sortByMtimeDesc files).take 5

/-- `main` after the audit directory has resolved and the `session-*.jsonl`
files have been enumerated (directory resolution and globbing are
filesystem I/O, modelled by taking the discovered entries as input):
report absence when no file matched, otherwise print the count and render
the five most recently modified files. -/
def mainRun (files : List FileEntry) : RunOutput :=
  if files.isEmpty then ⟨[.noSessionFiles], [], none⟩
  else
    match runSessions ((selectedFiles files).map (fun fe => (fe.path, fe.file))) with
    | r => ⟨.foundCount files.length :: r.stdout, r.stderr, r.uncaught⟩

/-! ### Lemmas about the loader -/

theorem loadLines_all_good (ls : List Line) (h : ls.all (fun l => !l.isBad) = true) :
    loadLines ls = (goodsOf ls, none) := by
  induction ls with
  | nil => rfl
  | cons l rest ih =>
    simp only [List.all_cons, Bool.and_eq_true] at h
    cases l with
    | blank => simpa [loadLines, goodsOf] using ih h.2
    | good e => simp [loadLines, goodsOf, ih h.2]
    | bad msg => simp [Line.isBad] at h

theorem goodsOf_length_eq_countP (ls : List Line) (h : ls.all (fun l => !l.isBad) = true) :
    (goodsOf ls).length = ls.countP (fun l => !l.isBlank) := by
  induction ls with
  | nil => rfl
  | cons l rest ih =>
    simp only [List.all_cons, Bool.and_eq_true] at h
    cases l with
    | blank => simpa [goodsOf, List.countP_cons, Line.isBlank] using ih h.2
    | good e => simpa [goodsOf, List.countP_cons, Line.isBlank] using ih h.2
    | bad msg => simp [Line.isBad] at h

theorem loadLines_stops_at_bad (pre : List Line) (msg : PyStr) (post : List Line)
    (h : pre.all (fun l => !l.isBad) = true) :
    loadLines (pre ++ Line.bad msg :: post) = (goodsOf pre, some msg) := by
  induction pre with
  | nil => rfl
  | cons l rest ih =>
    simp only [List.all_cons, Bool.and_eq_true] at h
    cases l with
    | blank => simpa [loadLines, goodsOf] using ih h.2
    | good e => simp [loadLines, goodsOf, ih h.2]
    | bad m => simp [Line.isBad] at h

/-- C8: For every valid session file containing N well-formed JSON event
lines (blank or whitespace-only lines skipped), the loader returns exactly
the N parsed events in the order they appear in the file: on a file with
no bad line the loader returns the `good` payloads in file order with no
error, and their number equals the number of non-blank lines. -/
theorem loader_returns_all_events_in_order (ls : List Line)
    (h : ls.all (fun l => !l.isBad) = true) :
    load_session_events (.content ls) = (goodsOf ls, none) ∧
    (goodsOf ls).length = ls.countP (fun l => !l.isBlank) :=
  ⟨loadLines_all_good ls h, goodsOf_length_eq_countP ls h⟩

/-- Witness for C8 on a concrete three-line file with two events. -/
theorem loader_returns_all_events_in_order_witness :
    load_session_events (.content [Line.good (.num 1), Line.blank, Line.good (.num 2)]) =
      (goodsOf [Line.good (.num 1), Line.blank, Line.good (.num 2)], none) ∧
    (goodsOf [Line.good (.num 1), Line.blank, Line.good (.num 2)]).length =
      [Line.good (.num 1), Line.blank, Line.good (.num 2)].countP (fun l => !l.isBlank) :=
  loader_returns_all_events_in_order _ (by rfl)

/-- C3: For every session file whose first malformed JSON line comes after
a prefix of well-formed or blank lines, the loader returns exactly the
events parsed before the bad line — as many as there are earlier non-blank
lines (`k-1` when the bad line is the `k`-th non-blank line) — and the
failure is reported as a caught exception message, not raised past the
loader (`load_session_events` is a total function). -/
theorem loader_yields_prefix_before_bad_line (pre : List Line) (msg : PyStr) (post : List Line)
    (h : pre.all (fun l => !l.isBad) = true) :
    load_session_events (.content (pre ++ Line.bad msg :: post)) = (goodsOf pre, some msg) ∧
    (goodsOf pre).length = pre.countP (fun l => !l.isBlank) :=
  ⟨loadLines_stops_at_bad pre msg post h, goodsOf_length_eq_countP pre h⟩

/-- Witness for C3: two good lines and a blank, then a bad line, then a
further good line that is never reached. -/
theorem loader_yields_prefix_before_bad_line_witness :
    load_session_events
        (.content ([Line.good (.num 1), Line.blank, Line.good (.num 2)] ++
          Line.bad "Expecting value".data :: [Line.good (.num 3)])) =
      (goodsOf [Line.good (.num 1), Line.blank, Line.good (.num 2)], some "Expecting value".data) ∧
    (goodsOf [Line.good (.num 1), Line.blank, Line.good (.num 2)]).length =
      [Line.good (.num 1), Line.blank, Line.good (.num 2)].countP (fun l => !l.isBlank) :=
  loader_yields_prefix_before_bad_line _ _ _ (by rfl)

/-! ### Lemmas about the timestamp formatter -/

theorem replaceZwithOffset_of_not_mem (t : PyStr) (h : 'Z' ∉ t) :
    replaceZwithOffset t = t := by
  induction t with
  | nil => rfl
  | cons c rest ih =>
    simp only [List.mem_cons, not_or] at h
    have hc : ¬c = 'Z' := fun hc => h.1 hc.symm
    simp [replaceZwithOffset, hc, ih h.2]

theorem replaceZwithOffset_append_Z (t : PyStr) (h : 'Z' ∉ t) :
    replaceZwithOffset (t ++ ['Z']) = t ++ "+00:00".data := by
  induction t with
  | nil => rfl
  | cons c rest ih =>
    simp only [List.mem_cons, not_or] at h
    have hc : ¬c = 'Z' := fun hc => h.1 hc.symm
    simp [replaceZwithOffset, hc, ih h.2]

/-- C5: For every instant, a timestamp string ending in `Z` and the
timestamp string with an explicit `+00:00` offset denoting that same
instant are formatted to the identical `YYYY-MM-DD HH:MM:SS` output by
`format_timestamp`: whenever the `+00:00` form parses (so both strings
denote an instant), the `Z`-suffixed form formats to the same string. -/
theorem format_timestamp_Z_eq_offset (t : PyStr) (dt : DateTime) (hz : 'Z' ∉ t)
    (hparse : fromisoformat (t ++ "+00:00".data) = some dt) :
    format_timestamp (t ++ ['Z']) = format_timestamp (t ++ "+00:00".data) := by
  have hz2 : 'Z' ∉ t ++ "+00:00".data := by
    intro hmem
    rcases List.mem_append.mp hmem with h1 | h1
    · exact hz h1
    · simp [String.data] at h1
  rw [format_timestamp, format_timestamp, replaceZwithOffset_append_Z t hz,
    replaceZwithOffset_of_not_mem _ hz2, hparse]

/-- Witness for C5 at the concrete instant 2024-01-02 03:04:05 UTC. -/
theorem format_timestamp_Z_eq_offset_witness :
    format_timestamp ("2024-01-02T03:04:05".data ++ ['Z']) =
      format_timestamp ("2024-01-02T03:04:05".data ++ "+00:00".data) :=
  format_timestamp_Z_eq_offset "2024-01-02T03:04:05".data
    ⟨2024, 1, 2, 3, 4, 5, 0, some 0⟩ (by decide) (by rfl)

/-- C6: For every string that fails to parse as a timestamp, the formatter
returns the original string unmodified; `format_timestamp` is a total
function (the source wraps its whole body in `try`/bare `except`), so it
never raises to its caller on any input. -/
theorem format_timestamp_fallback (s : PyStr)
    (h : fromisoformat (replaceZwithOffset s) = none) :
    format_timestamp s = s := by
  rw [format_timestamp, h]

/-- Witness for C6 on a concrete malformed timestamp. -/
theorem format_timestamp_fallback_witness :
    format_timestamp "not-a-timestamp".data = "not-a-timestamp".data :=
  format_timestamp_fallback _ (by rfl)

/-! ### Lemmas about the renderer's event loop -/

theorem getItem_obj (fs : List (PyStr × JVal)) (key : PyStr) (v : JVal)
    (h : lookupField fs key = some v) : getItem (.obj fs) key = .ok v := by
  simp [getItem, h]

/-- C7: For every `user_input` event, an input text of length at most 100
characters is rendered unmodified (no ellipsis), and an input text of
length 101 or more is rendered truncated to its first 100 characters
followed by the ellipsis marker `...`. -/
theorem user_input_truncation (st : SessState) (fs : List (PyStr × JVal))
    (tsv d : JVal) (s : PyStr)
    (hts : lookupField fs "ts".data = some tsv)
    (hty : lookupField fs "type".data = some (.str "user_input".data))
    (hd : lookupField fs "data".data = some d)
    (hin : getItem d "input".data = .ok (.str s)) :
    (s.length ≤ 100 →
      procEvent st (.obj fs) = (emit st (.userInput (.str s)), none)) ∧
    (101 ≤ s.length →
      procEvent st (.obj fs) =
        (emit st (.userInput (.str (s.take 100 ++ "...".data))), none)) := by
  have gts := getItem_obj fs "ts".data tsv hts
  have gty := getItem_obj fs "type".data (.str "user_input".data) hty
  have gd := getItem_obj fs "data".data d hd
  have h1 : isStr (JVal.str "user_input".data) "session_start" = false := by decide
  have h2 : isStr (JVal.str "user_input".data) "user_input" = true := by decide
  constructor
  · intro hlen
    have hgt : ¬s.length > 100 := by omega
    simp [procEvent, gts, gty, gd, hin, h1, h2, pyTruncate, hgt]
  · intro hlen
    have hgt : s.length > 100 := by omega
    simp [procEvent, gts, gty, gd, hin, h1, h2, pyTruncate, hgt]

/-- Witness for C7 on a concrete input of 101 characters. -/
theorem user_input_truncation_witness :
    procEvent ⟨[], 0, 0⟩
        (.obj [("ts".data, .str "t".data), ("type".data, .str "user_input".data),
          ("data".data, .obj [("input".data, .str (List.replicate 101 'a'))])]) =
      (emit ⟨[], 0, 0⟩
        (.userInput (.str ((List.replicate 101 'a').take 100 ++ "...".data))), none) :=
  (user_input_truncation ⟨[], 0, 0⟩ _ _ _ _ (by rfl) (by rfl) (by rfl) (by rfl)).2 (by simp)

/-- C10: For every event whose `type` field is none of the five known tags
but which has `ts`, `type`, and `session_id` fields, the renderer prints
no transcript line for that event and leaves both the tool-invocation
counter and the MCP counter unchanged: the loop iteration returns the
state unchanged and raises nothing. -/
theorem unknown_event_type_ignored (st : SessState) (fs : List (PyStr × JVal))
    (tsv t sid : JVal)
    (hts : lookupField fs "ts".data = some tsv)
    (hty : lookupField fs "type".data = some t)
    (hsid : lookupField fs "session_id".data = some sid)
    (h1 : isStr t "session_start" = false)
    (h2 : isStr t "user_input" = false)
    (h3 : isStr t "tool_execute_start" = false)
    (h4 : isStr t "tool_execute_end" = false)
    (h5 : isStr t "session_end" = false) :
    procEvent st (.obj fs) = (st, none) := by
  have gts := getItem_obj fs "ts".data tsv hts
  have gty := getItem_obj fs "type".data t hty
  simp [procEvent, gts, gty, h1, h2, h3, h4, h5]

/-- Witness for C10 on a concrete event of type `mystery`. -/
theorem unknown_event_type_ignored_witness :
    procEvent ⟨[], 0, 0⟩
        (.obj [("session_id".data, .str "s".data), ("ts".data, .str "t".data),
          ("type".data, .str "mystery".data)]) =
      (⟨[], 0, 0⟩, none) :=
  unknown_event_type_ignored ⟨[], 0, 0⟩ _ _ _ _ (by rfl) (by rfl) (by rfl)
    (by decide) (by decide) (by decide) (by decide) (by decide)

/-! ### Well-formed events -/

/-- Whether an event's `type` is `tool_execute_start` (the events that
increment the tool counter). -/
def isToolStart (e : JVal) : Bool :=
  match e with
  | .obj fs =>
    match lookupField fs "type".data with
    | some t => isStr t "tool_execute_start"
    | none => false
  | _ => false

/-- Whether an event's data has a truthy `mcp_server` value (the condition
under which the MCP counter is incremented). -/
def hasTruthyMcp (e : JVal) : Bool :=
  match e with
  | .obj fs =>
    match lookupField fs "data".data with
    | some (.obj ds) => truthy (objGetD ds "mcp_server".data .null)
    | _ => false
  | _ => false

/-- The per-type field requirements under which the dispatch on one event
raises no exception (sufficient conditions read off the code's accesses). -/
def wellFormedForType (t : JVal) (dataOpt : Option JVal) : Bool :=
  if isStr t "session_start" then
    match dataOpt with
    | some (.obj _) => true
    | _ => false
  else if isStr t "user_input" then
    match dataOpt with
    | some d =>
      match getItem d "input".data with
      | .ok (.str _) => true
      | _ => false
    | none => false
  else if isStr t "tool_execute_start" then
    match dataOpt with
    | some (.obj ds) => (lookupField ds "tool_name".data).isSome
    | _ => false
  else if isStr t "tool_execute_end" then
    match dataOpt with
    | some (.obj ds) =>
      (lookupField ds "status".data).isSome &&
      (match lookupField ds "output".data with
       | none => true
       | some (.str _) => true
       | some _ => false)
    | _ => false
  else true

/-- An event whose fields suffice for its loop iteration to raise no
exception: a dict with a `ts` field, a `type` field, and the per-type
requirements on `data`. -/
def wellFormedEvent (e : JVal) : Bool :=
  match e with
  | .obj fs =>
    (lookupField fs "ts".data).isSome &&
    (match lookupField fs "type".data with
     | none => false
     | some t => wellFormedForType t (lookupField fs "data".data))
  | _ => false

/-- Whether an event is a dict carrying a `session_id` field. -/
def hasSessionId (e : JVal) : Bool :=
  match e with
  | .obj fs => (lookupField fs "session_id".data).isSome
  | _ => false

/-- A session file whose rendering raises no exception: every loaded event
is well formed, and when any event loaded, the first carries `session_id`. -/
def fileRendersSafely (f : SessionFile) : Bool :=
  (load_session_events f).1.all wellFormedEvent &&
  (match (load_session_events f).1 with
   | [] => true
   | e0 :: _ => hasSessionId e0)

theorem isStr_eq_lit (t : JVal) (lit : String) (h : isStr t lit = true) :
    t = .str lit.data := by
  cases t <;> simp_all [isStr]

theorem isStr_ne (t : JVal) (a b : String) (ha : isStr t a = true)
    (hne : a.data ≠ b.data) : isStr t b = false := by
  obtain rfl := isStr_eq_lit t a ha
  simp [isStr, hne]

/-- On a well-formed event, one loop iteration raises nothing, increments
the tool counter exactly on `tool_execute_start`, and increments the MCP
counter exactly on `tool_execute_start` with a truthy `mcp_server`. -/
theorem procEvent_wf (st : SessState) (e : JVal) (h : wellFormedEvent e = true) :
    (procEvent st e).2 = none ∧
    (procEvent st e).1.toolCount = st.toolCount + (if isToolStart e then 1 else 0) ∧
    (procEvent st e).1.mcpCount =
      st.mcpCount + (if isToolStart e && hasTruthyMcp e then 1 else 0) := by
  cases e with
  | null => simp [wellFormedEvent] at h
  | bool b => simp [wellFormedEvent] at h
  | num n => simp [wellFormedEvent] at h
  | str s => simp [wellFormedEvent] at h
  | arr xs => simp [wellFormedEvent] at h
  | obj fs =>
    rw [wellFormedEvent] at h
    cases hts : lookupField fs "ts".data with
    | none => rw [hts] at h; simp at h
    | some tsv =>
    cases hty : lookupField fs "type".data with
    | none => rw [hts, hty] at h; simp at h
    | some t =>
    rw [hts, hty] at h
    simp only [Option.isSome_some, Bool.true_and] at h
    have gts := getItem_obj fs "ts".data tsv hts
    have gty := getItem_obj fs "type".data t hty
    have hitool : isToolStart (.obj fs) = isStr t "tool_execute_start" := by
      rw [isToolStart, hty]
    rw [wellFormedForType.eq_def] at h
    by_cases h1 : isStr t "session_start" = true
    · rw [if_pos h1] at h
      have hnt : isStr t "tool_execute_start" = false := isStr_ne t _ _ h1 (by decide)
      cases hd : lookupField fs "data".data with
      | none => rw [hd] at h; simp at h
      | some d =>
        rw [hd] at h
        cases d with
        | obj ds =>
          have gd := getItem_obj fs "data".data (.obj ds) hd
          simp [procEvent, gts, gty, gd, h1, hitool, hnt, emit]
        | null => simp at h
        | bool b => simp at h
        | num n => simp at h
        | str s => simp at h
        | arr xs => simp at h
    · rw [if_neg h1] at h
      by_cases h2 : isStr t "user_input" = true
      · rw [if_pos h2] at h
        have hnt : isStr t "tool_execute_start" = false := isStr_ne t _ _ h2 (by decide)
        cases hd : lookupField fs "data".data with
        | none => rw [hd] at h; simp at h
        | some d =>
          simp only [hd] at h
          have gd := getItem_obj fs "data".data d hd
          cases hin : getItem d "input".data with
          | error e => rw [hin] at h; simp at h
          | ok v =>
            rw [hin] at h
            cases v with
            | str s =>
              simp [procEvent, gts, gty, gd, hin, h1, h2, hitool, hnt, pyTruncate, emit]
            | null => simp at h
            | bool b => simp at h
            | num n => simp at h
            | arr xs => simp at h
            | obj ds => simp at h
      · rw [if_neg h2] at h
        by_cases h3 : isStr t "tool_execute_start" = true
        · rw [if_pos h3] at h
          cases hd : lookupField fs "data".data with
          | none => rw [hd] at h; simp at h
          | some d =>
            simp only [hd] at h
            cases d with
            | obj ds =>
              simp only [] at h
              have gd := getItem_obj fs "data".data (.obj ds) hd
              cases htn : lookupField ds "tool_name".data with
              | none => rw [htn] at h; simp at h
              | some tn =>
                have hmcpv : hasTruthyMcp (.obj fs) =
                    truthy (objGetD ds "mcp_server".data .null) := by
                  rw [hasTruthyMcp, hd]
                cases hmcp : lookupField ds "mcp_server".data with
                | none =>
                  have hobj : objGetD ds "mcp_server".data .null = .null := by
                    simp [objGetD, hmcp]
                  simp [procEvent, gts, gty, gd, h1, h2, h3, hitool, hmcpv, hobj,
                    print_tool_execution, htn, hmcp, truthy, emits]
                | some v =>
                  have hobj : objGetD ds "mcp_server".data .null = v := by
                    simp [objGetD, hmcp]
                  by_cases htr : truthy v = true
                  · simp [procEvent, gts, gty, gd, h1, h2, h3, hitool, hmcpv, hobj,
                      print_tool_execution, htn, hmcp, htr, emits]
                  · rw [Bool.not_eq_true] at htr
                    simp [procEvent, gts, gty, gd, h1, h2, h3, hitool, hmcpv, hobj,
                      print_tool_execution, htn, hmcp, htr, emits]
            | null => simp at h
            | bool b => simp at h
            | num n => simp at h
            | str s => simp at h
            | arr xs => simp at h
        · rw [if_neg h3] at h
          have hnt : isStr t "tool_execute_start" = false := by
            rw [Bool.not_eq_true] at h3; exact h3
          by_cases h4 : isStr t "tool_execute_end" = true
          · rw [if_pos h4] at h
            cases hd : lookupField fs "data".data with
            | none => rw [hd] at h; simp at h
            | some d =>
              simp only [hd] at h
              cases d with
              | obj ds =>
                simp only [] at h
                have gd := getItem_obj fs "data".data (.obj ds) hd
                cases hst : lookupField ds "status".data with
                | none => rw [hst] at h; simp at h
                | some sv =>
                  rw [hst] at h
                  simp only [Option.isSome_some, Bool.true_and] at h
                  cases hout : lookupField ds "output".data with
                  | none =>
                    cases hdur : lookupField ds "duration_ms".data with
                    | none =>
                      simp [procEvent, gts, gty, gd, h1, h2, h3, h4, hitool, hnt,
                        print_tool_execution, hst, hout, hdur, emits]
                    | some dv =>
                      simp [procEvent, gts, gty, gd, h1, h2, h3, h4, hitool, hnt,
                        print_tool_execution, hst, hout, hdur, emits]
                  | some ov =>
                    rw [hout] at h
                    cases ov with
                    | str so =>
                      cases hdur : lookupField ds "duration_ms".data with
                      | none =>
                        simp [procEvent, gts, gty, gd, h1, h2, h3, h4, hitool, hnt,
                          print_tool_execution, hst, hout, hdur, pyTruncate, emits]
                      | some dv =>
                        simp [procEvent, gts, gty, gd, h1, h2, h3, h4, hitool, hnt,
                          print_tool_execution, hst, hout, hdur, pyTruncate, emits]
                    | null => simp at h
                    | bool b => simp at h
                    | num n => simp at h
                    | arr xs => simp at h
                    | obj os => simp at h
              | null => simp at h
              | bool b => simp at h
              | num n => simp at h
              | str s => simp at h
              | arr xs => simp at h
          · by_cases h5 : isStr t "session_end" = true
            · simp [procEvent, gts, gty, h1, h2, h3, h4, h5, hitool, hnt, emit]
            · simp [procEvent, gts, gty, h1, h2, h3, h4, h5, hitool, hnt]

/-- Over a list of well-formed events the loop raises nothing and the
final counters are the initial ones plus the respective event counts. -/
theorem procEvents_wf (events : List JVal) :
    ∀ st : SessState, events.all wellFormedEvent = true →
    (procEvents st events).2 = none ∧
    (procEvents st events).1.toolCount = st.toolCount + events.countP isToolStart ∧
    (procEvents st events).1.mcpCount =
      st.mcpCount + events.countP (fun e => isToolStart e && hasTruthyMcp e) := by
  induction events with
  | nil => intro st _; simp [procEvents]
  | cons e rest ih =>
    intro st h
    simp only [List.all_cons, Bool.and_eq_true] at h
    obtain ⟨he1, he2, he3⟩ := procEvent_wf st e h.1
    cases hpe : procEvent st e with
    | mk st2 err =>
      rw [hpe] at he1 he2 he3
      subst he1
      obtain ⟨ih1, ih2, ih3⟩ := ih st2 h.2
      refine ⟨?_, ?_, ?_⟩
      · rw [procEvents, hpe]; exact ih1
      · rw [procEvents, hpe, ih2, he2, List.countP_cons]
        by_cases hts : isToolStart e = true <;> simp [hts] <;> omega
      · rw [procEvents, hpe, ih3, he3, List.countP_cons]
        by_cases hts : (isToolStart e && hasTruthyMcp e) = true <;> simp [hts] <;> omega

/-- Every branch of one loop iteration only appends to the printed output. -/
theorem procEvent_out_extends (st : SessState) (e : JVal) :
    ∃ d, (procEvent st e).1.out = st.out ++ d := by
  rw [procEvent]
  repeat' split
  all_goals simp [emit, emits]

/-- The whole loop only appends to the printed output. -/
theorem procEvents_out_extends (events : List JVal) :
    ∀ st : SessState, ∃ d, (procEvents st events).1.out = st.out ++ d := by
  induction events with
  | nil => intro st; exact ⟨[], by simp [procEvents]⟩
  | cons e rest ih =>
    intro st
    obtain ⟨d1, hd1⟩ := procEvent_out_extends st e
    cases hpe : procEvent st e with
    | mk st2 err =>
      rw [hpe] at hd1
      cases err with
      | some er => exact ⟨d1, by rw [procEvents, hpe]; exact hd1⟩
      | none =>
        obtain ⟨d2, hd2⟩ := ih st2
        exact ⟨d1 ++ d2, by rw [procEvents, hpe, hd2, hd1, List.append_assoc]⟩

/-- On a file whose loaded events are well formed (first one carrying
`session_id`), rendering raises nothing, and when any event loaded the
last printed line is the footer with the two event counts. -/
theorem analyze_session_safe_footer (p : PyStr) (f : SessionFile)
    (h : fileRendersSafely f = true) :
    (analyze_session p f).2 = none ∧
    ((load_session_events f).1 ≠ [] →
      (analyze_session p f).1.getLast? =
        some (.footer ((load_session_events f).1.countP isToolStart)
          ((load_session_events f).1.countP (fun e => isToolStart e && hasTruthyMcp e)))) := by
  rw [fileRendersSafely] at h
  cases hl : load_session_events f with
  | mk events loadErr =>
    rw [hl] at h
    simp only [Bool.and_eq_true] at h
    cases events with
    | nil => simp [analyze_session.eq_def, hl]
    | cons e0 rest =>
      cases e0 with
      | obj fs =>
        cases hsid : lookupField fs "session_id".data with
        | none => simp [hasSessionId, hsid] at h
        | some sid =>
          cases hpe : procEvents
              { out := preOut p loadErr ++ [.sessionHeader sid, .fileHeader p],
                toolCount := 0, mcpCount := 0 } (JVal.obj fs :: rest) with
          | mk stf err =>
            obtain ⟨hp1, hc1, hc2⟩ :=
              procEvents_wf (JVal.obj fs :: rest)
                { out := preOut p loadErr ++ [.sessionHeader sid, .fileHeader p],
                  toolCount := 0, mcpCount := 0 } h.1
            rw [hpe] at hp1 hc1 hc2
            subst hp1
            simp only at hc1 hc2
            simp [analyze_session.eq_def, hl, getItem, hsid, hpe, List.getLast?_concat,
              hc1, hc2]
      | null => simp [hasSessionId] at h
      | bool b => simp [hasSessionId] at h
      | num n => simp [hasSessionId] at h
      | str s => simp [hasSessionId] at h
      | arr xs => simp [hasSessionId] at h

/-- The script never writes to standard error. -/
theorem runSessions_stderr_nil (files : List (PyStr × SessionFile)) :
    (runSessions files).stderr = [] := by
  induction files with
  | nil => rfl
  | cons pf rest ih =>
    obtain ⟨p, f⟩ := pf
    simp only [runSessions]
    cases ha : analyze_session p f with
    | mk out err =>
      cases err with
      | some e => simp [ha]
      | none => simp [ha, ih]

/-- C2 counterexample: a session file whose single line is the valid JSON
object `{}` (no `session_id` field) makes the run raise an uncaught
`KeyError`, refuting the claim that the overall run never raises on
inputs whose lines are valid JSON but lack fields. -/
theorem run_crashes_on_event_without_fields :
    (runSessions [("session-x.jsonl".data, .content [.good (.obj [])])]).uncaught =
      some (.keyError "session_id".data) := rfl

/-- C2 (amended): for session files all of whose loaded events are
well formed — each a JSON object with `ts`, `type`, and the fields its
type's branch accesses, the first carrying `session_id` — the run raises
no uncaught error; the loader's and formatter's own failures are caught
and become printed lines. -/
theorem run_never_raises_on_wellformed_files (files : List (PyStr × SessionFile))
    (h : ∀ pf ∈ files, fileRendersSafely pf.2 = true) :
    (runSessions files).uncaught = none := by
  induction files with
  | nil => rfl
  | cons pf rest ih =>
    obtain ⟨p, f⟩ := pf
    have hf := h (p, f) (List.mem_cons_self _ _)
    have hsafe := (analyze_session_safe_footer p f hf).1
    cases ha : analyze_session p f with
    | mk out err =>
      rw [ha] at hsafe
      simp only at hsafe
      subst hsafe
      simp only [runSessions, ha]
      exact ih (fun q hq => h q (List.mem_cons_of_mem _ hq))

/-- Witness for C2 (amended) on a one-file, one-event run. -/
theorem run_never_raises_on_wellformed_files_witness :
    (runSessions [("session-a.jsonl".data,
      .content [.good (.obj [("session_id".data, .str "s".data),
        ("ts".data, .str "t".data),
        ("type".data, .str "session_end".data)])])]).uncaught = none :=
  run_never_raises_on_wellformed_files _ (by decide)

/-- C4 counterexample: a `tool_execute_start` event whose data *contains*
an `mcp_server` field with the falsy value `""` does not increment the
MCP counter: the footer reports total=1, MCP=0, refuting the claim that
every `tool_execute_start` whose data contains an `mcp_server` field
increments the MCP-specific counter. -/
theorem mcp_field_present_but_not_counted :
    (lookupField [("tool_name".data, JVal.str "hammer".data),
        ("mcp_server".data, JVal.str [])] "mcp_server".data).isSome = true ∧
    (analyze_session "session-1.jsonl".data
        (.content [.good (.obj [("session_id".data, .str "s".data),
          ("ts".data, .str "t".data),
          ("type".data, .str "tool_execute_start".data),
          ("data".data, .obj [("tool_name".data, .str "hammer".data),
            ("mcp_server".data, .str [])])])])).1.getLast? =
      some (.footer 1 0) :=
  ⟨rfl, rfl⟩

/-- C4 (amended): each `tool_execute_start` event increments the running
tool counter, and each `tool_execute_start` event whose data carries a
*truthy* `mcp_server` value (e.g. a non-empty server name) also increments
the MCP counter; the footer reports both counts. -/
theorem footer_reports_tool_and_mcp_counts (p : PyStr) (f : SessionFile)
    (h : fileRendersSafely f = true) (hne : (load_session_events f).1 ≠ []) :
    (analyze_session p f).1.getLast? =
      some (.footer ((load_session_events f).1.countP isToolStart)
        ((load_session_events f).1.countP (fun e => isToolStart e && hasTruthyMcp e))) :=
  (analyze_session_safe_footer p f h).2 hne

/-- Witness for C4 (amended): a session with 3 `tool_execute_start`
events, exactly 1 carrying a non-empty MCP server name, reports total=3,
MCP=1 in the footer. -/
theorem footer_reports_tool_and_mcp_counts_witness :
    (analyze_session "session-b.jsonl".data
        (.content [.good (.obj [("session_id".data, .str "s".data),
            ("ts".data, .str "t".data),
            ("type".data, .str "tool_execute_start".data),
            ("data".data, .obj [("tool_name".data, .str "a".data)])]),
          .good (.obj [("ts".data, .str "t".data),
            ("type".data, .str "tool_execute_start".data),
            ("data".data, .obj [("tool_name".data, .str "b".data),
              ("mcp_server".data, .str "srv".data)])]),
          .good (.obj [("ts".data, .str "t".data),
            ("type".data, .str "tool_execute_start".data),
            ("data".data, .obj [("tool_name".data, .str "c".data)])])])).1.getLast? =
      some (.footer 3 1) :=
  footer_reports_tool_and_mcp_counts "session-b.jsonl".data _ (by decide)
    (by simp [load_session_events, loadLines])

/-- The loader's error line is the first line `analyze_session` prints. -/
theorem analyze_head_error_line (p : PyStr) (f : SessionFile) (msg : PyStr)
    (h : (load_session_events f).2 = some msg) :
    (analyze_session p f).1.head? = some (.errorReading (errorLine p msg)) := by
  cases hl : load_session_events f with
  | mk events loadErr =>
    rw [hl] at h
    simp only at h
    subst h
    cases events with
    | nil => simp [analyze_session.eq_def, hl, preOut]
    | cons e0 rest =>
      cases hg : getItem e0 "session_id".data with
      | error err => simp [analyze_session.eq_def, hl, hg, preOut]
      | ok sid =>
        obtain ⟨d, hd⟩ := procEvents_out_extends (e0 :: rest)
          { out := preOut p (some msg) ++ [.sessionHeader sid, .fileHeader p],
            toolCount := 0, mcpCount := 0 }
        cases hpe : procEvents
            { out := preOut p (some msg) ++ [.sessionHeader sid, .fileHeader p],
              toolCount := 0, mcpCount := 0 } (e0 :: rest) with
        | mk stf err2 =>
          rw [hpe] at hd
          simp only at hd
          rw [analyze_session.eq_def, hl]
          simp only []
          rw [hg]
          simp only []
          cases err2 with
          | some e =>
            rw [hpe]
            simp only []
            rw [hd]
            simp [preOut]
          | none =>
            rw [hpe]
            simp only []
            rw [hd]
            simp [preOut]

/-- C1 (amended): for every session file whose read or parse fails, the
loader logs one line `Error reading <path>: <message>` to *standard
output* (the script's `print` never targets standard error), the error
line precedes all other output for that file, and the caught failure does
not abort the per-file loop: whenever rendering the partially loaded
events raises nothing, the remaining session files are still processed. -/
theorem read_failure_logged_to_stdout (p : PyStr) (f : SessionFile) (msg : PyStr)
    (rest : List (PyStr × SessionFile))
    (h : (load_session_events f).2 = some msg) :
    (analyze_session p f).1.head? = some (.errorReading (errorLine p msg)) ∧
    ((analyze_session p f).2 = none →
      runSessions ((p, f) :: rest) =
        ⟨(analyze_session p f).1 ++ (runSessions rest).stdout, [],
          (runSessions rest).uncaught⟩) := by
  refine ⟨analyze_head_error_line p f msg h, fun hnone => ?_⟩
  cases ha : analyze_session p f with
  | mk out err =>
    rw [ha] at hnone
    simp only at hnone
    subst hnone
    have hse := runSessions_stderr_nil rest
    cases hr : runSessions rest with
    | mk so se su =>
      rw [hr] at hse
      simp only at hse
      subst hse
      simp [runSessions, ha, hr]

/-- Witness for C1 (amended): a file whose `open` raises, followed by a
healthy second file that is still rendered. -/
theorem read_failure_logged_to_stdout_witness :
    (analyze_session "session-1.jsonl".data (.openError "boom".data)).1.head? =
      some (.errorReading (errorLine "session-1.jsonl".data "boom".data)) ∧
    ((analyze_session "session-1.jsonl".data (.openError "boom".data)).2 = none →
      runSessions [("session-1.jsonl".data, .openError "boom".data),
          ("session-2.jsonl".data, .content [.good (.obj [("session_id".data, .str "s".data),
            ("ts".data, .str "t".data), ("type".data, .str "session_end".data)])])] =
        ⟨(analyze_session "session-1.jsonl".data (.openError "boom".data)).1 ++
            (runSessions [("session-2.jsonl".data,
              .content [.good (.obj [("session_id".data, .str "s".data),
                ("ts".data, .str "t".data),
                ("type".data, .str "session_end".data)])])]).stdout, [],
          (runSessions [("session-2.jsonl".data,
            .content [.good (.obj [("session_id".data, .str "s".data),
              ("ts".data, .str "t".data),
              ("type".data, .str "session_end".data)])])]).uncaught⟩) :=
  read_failure_logged_to_stdout "session-1.jsonl".data (.openError "boom".data)
    "boom".data _ (by rfl)

/-- C1 counterexample: a file-read failure produces its formatted
`Error reading <path>: <message>` line on standard output, and the
standard-error channel stays empty — the error is not logged to standard
error as the claim states. -/
theorem error_line_goes_to_stdout_not_stderr :
    (load_session_events (.openError "boom".data)).2 = some "boom".data ∧
    (runSessions [("session-1.jsonl".data, SessionFile.openError "boom".data)]).stderr = [] ∧
    (runSessions [("session-1.jsonl".data, SessionFile.openError "boom".data)]).stdout =
      [.errorReading (errorLine "session-1.jsonl".data "boom".data)] :=
  ⟨rfl, rfl, rfl⟩

/-! ### Sorting and selection of session files -/

instance : IsTotal FileEntry (fun x y => y.mtime ≤ x.mtime) :=
  ⟨fun a b => Nat.le_total b.mtime a.mtime⟩

instance : IsTrans FileEntry (fun x y => y.mtime ≤ x.mtime) :=
  ⟨fun _ _ _ hab hbc => le_trans hbc hab⟩

/-- In a descending-sorted list with pairwise-distinct keys, membership of
an element in the first `k` entries is exactly having fewer than `k`
strictly greater keys. -/
theorem mem_take_sorted_iff (L : List FileEntry) :
    ∀ (k : Nat) (f : FileEntry),
      List.Pairwise (fun x y => y.mtime ≤ x.mtime) L →
      (L.map FileEntry.mtime).Nodup → f ∈ L →
      (f ∈ L.take k ↔ L.countP (fun g => decide (f.mtime < g.mtime)) < k) := by
  induction L with
  | nil => intro k f _ _ hf; exact absurd hf (List.not_mem_nil f)
  | cons a L ih =>
    intro k f hs hnd hf
    rw [List.pairwise_cons] at hs
    rw [List.map_cons, List.nodup_cons] at hnd
    cases k with
    | zero =>
      simp only [List.take_zero]
      constructor
      · intro hx; exact absurd hx (List.not_mem_nil f)
      · intro hx; omega
    | succ k =>
      rw [List.take_succ_cons]
      rcases List.mem_cons.mp hf with rfl | hfL
      · have hcnt : (f :: L).countP (fun g => decide (f.mtime < g.mtime)) = 0 := by
          rw [List.countP_eq_zero]
          intro g hg
          rcases List.mem_cons.mp hg with rfl | hgL
          · simp
          · have hle := hs.1 g hgL
            simp only [decide_eq_true_eq]
            omega
        rw [hcnt]
        simp
      · have hne : f.mtime ≠ a.mtime := by
          intro he
          exact hnd.1 (he ▸ List.mem_map_of_mem FileEntry.mtime hfL)
        have hlt : f.mtime < a.mtime := lt_of_le_of_ne (hs.1 f hfL) hne
        have hfa : f ≠ a := by
          intro he; rw [he] at hne; exact hne rfl
        have hih := ih k f hs.2 hnd.2 hfL
        have hcnt : (a :: L).countP (fun g => decide (f.mtime < g.mtime)) =
            L.countP (fun g => decide (f.mtime < g.mtime)) + 1 := by
          simp [List.countP_cons, hlt]
        rw [hcnt, List.mem_cons]
        constructor
        · rintro (rfl | hxk)
          · exact absurd rfl hfa
          · have := hih.mp hxk; omega
        · intro hx
          exact Or.inr (hih.mpr (by omega))

/-- C9: the discovered session files are sorted descending by modification
time (the sorted list is a permutation of the input, in weakly decreasing
mtime order), and only the most recent 5 are rendered: with 7 candidate
files of distinct mtimes, exactly 5 are selected, a file is selected iff
fewer than 5 files are more recent, and `main` renders exactly the
selected files. -/
theorem sessions_sorted_desc_top5_rendered (files : List FileEntry) :
    (List.Pairwise (fun x y => y.mtime ≤ x.mtime) (sortByMtimeDesc files) ∧
      List.Perm (sortByMtimeDesc files) files) ∧
    (files.length = 7 → (files.map FileEntry.mtime).Nodup →
      (selectedFiles files).length = 5 ∧
      ∀ f ∈ files, (f ∈ selectedFiles files ↔
        files.countP (fun g => decide (f.mtime < g.mtime)) < 5)) ∧
    (files ≠ [] →
      (mainRun files).stdout = .foundCount files.length ::
        (runSessions ((selectedFiles files).map (fun fe => (fe.path, fe.file)))).stdout) := by
  have hperm : List.Perm (sortByMtimeDesc files) files := List.perm_insertionSort _ files
  have hsorted : List.Pairwise (fun x y => y.mtime ≤ x.mtime) (sortByMtimeDesc files) :=
    List.sorted_insertionSort _ files
  refine ⟨⟨hsorted, hperm⟩, fun hlen hnd => ?_, fun hne => ?_⟩
  · have hLlen : (sortByMtimeDesc files).length = 7 := by rw [hperm.length_eq, hlen]
    constructor
    · rw [selectedFiles, List.length_take, hLlen]
      decide
    · intro f hf
      have hfL : f ∈ sortByMtimeDesc files := hperm.mem_iff.mpr hf
      have hndL : ((sortByMtimeDesc files).map FileEntry.mtime).Nodup :=
        ((hperm.map FileEntry.mtime).nodup_iff).mpr hnd
      have hcnt := hperm.countP_eq (fun g => decide (f.mtime < g.mtime))
      rw [selectedFiles, ← hcnt]
      exact mem_take_sorted_iff (sortByMtimeDesc files) 5 f hsorted hndL hfL
  · cases files with
    | nil => exact absurd rfl hne
    | cons a l =>
      cases hr : runSessions ((selectedFiles (a :: l)).map (fun fe => (fe.path, fe.file))) with
      | mk so se su => simp [mainRun, hr]

/-- Seven concrete session files with distinct modification times. -/
def sampleSessionFiles : List FileEntry :=
  [⟨"session-1.jsonl".data, 11, .content []⟩, ⟨"session-2.jsonl".data, 14, .content []⟩,
   ⟨"session-3.jsonl".data, 12, .content []⟩, ⟨"session-4.jsonl".data, 17, .content []⟩,
   ⟨"session-5.jsonl".data, 13, .content []⟩, ⟨"session-6.jsonl".data, 16, .content []⟩,
   ⟨"session-7.jsonl".data, 15, .content []⟩]

/-- Witness for C9 on seven concrete files. -/
theorem sessions_sorted_desc_top5_rendered_witness :
    (selectedFiles sampleSessionFiles).length = 5 ∧
    (mainRun sampleSessionFiles).stdout = .foundCount sampleSessionFiles.length ::
      (runSessions ((selectedFiles sampleSessionFiles).map
        (fun fe => (fe.path, fe.file)))).stdout :=
  ⟨((sessions_sorted_desc_top5_rendered sampleSessionFiles).2.1 (by decide) (by decide)).1,
    (sessions_sorted_desc_top5_rendered sampleSessionFiles).2.2 (by simp [sampleSessionFiles])⟩
